import Mathlib

/-!
Shallow embedding of the gesture-driven direct-manipulation core of the
iron-man-table repository (the `HandTracking` component): pinch detection,
drag management with clamping, drop-zone membership, swipe detection and the
chart view state machine, as executed once per 30 fps render tick.

Coordinates are normalized rationals; timestamps are integer milliseconds.
The source compares `Math.sqrt(dx*dx + dy*dy) < r`; since both sides are
nonnegative this is equivalent to `dx^2 + dy^2 < r^2` for `r >= 0`, which is
how distances are embedded to keep every definition executable over ℚ.
-/

namespace IronManTable

/-- A single normalized hand landmark (the z depth is unused by the core). -/
structure Point where
  x : ℚ
  y : ℚ

/-- A hand's landmark set, indexed by MediaPipe landmark number
(thumb tip = 4, index tip = 8, index PIP = 6). -/
def Hand : Type := Nat → Point

/-- `TableObject` from the source: a draggable table token. -/
structure TableObject where
  id : String
  name : String
  x : ℚ
  y : ℚ
  isDragging : Bool
deriving DecidableEq, Repr

/-- `pinchStateRef` contents. -/
structure PinchState where
  isPinching : Bool
  x : ℚ
  y : ℚ
deriving DecidableEq, Repr

/-- `swipeStateRef` contents. -/
structure SwipeState where
  isTracking : Bool
  startX : ℚ
  startY : ℚ
  currentX : ℚ
  currentY : ℚ
  startTime : ℤ
deriving DecidableEq, Repr

/-- `chartAnimationState` values. -/
inductive ChartState
  | hidden
  | entering
  | visible
  | exiting
deriving DecidableEq, Repr

/-- Toast severity, `'info' | 'error'`. -/
inductive ToastKind
  | info
  | error
deriving DecidableEq, Repr

/-- A toast notification, `{ message, type }`. -/
structure Toast where
  message : String
  kind : ToastKind
deriving DecidableEq, Repr

/-- The persistent mutable state of the component: the refs
(`tablesRef`, `draggedTableRef`, `droppedTablesRef`, `generateButtonHoverRef`,
`buttonClickedRef`, `pinchStateRef`, `swipeStateRef`, `chartAnimationStartRef`)
together with the React state that the tick logic reads and writes
(`showChart`, `chartAnimationState`, `chartData.tables`, `toast`). -/
structure CoreState where
  tables : List TableObject
  draggedTable : Option String
  droppedTables : List String
  generateButtonHover : Bool
  buttonClicked : Bool
  pinch : PinchState
  swipe : SwipeState
  showChart : Bool
  chartAnimationState : ChartState
  chartAnimationStart : ℤ
  chartDataTables : List String
  toast : Option Toast
deriving DecidableEq, Repr

/-- Externally visible actions a tick can perform besides updating state:
showing a toast, requesting catalog data (`fetchTableData`), scheduling the
delayed `showChartWithAnimation` call, and the swipe-complete exit
(`hideChartWithAnimation` invocation). -/
inductive Effect
  | toastMsg (message : String) (kind : ToastKind)
  | fetchData (tableNames : List String)
  | scheduleShowChart
  | swipeExit
deriving DecidableEq, Repr

/-- A static normalized rectangle given by center and extent. -/
structure Zone where
  x : ℚ
  y : ℚ
  width : ℚ
  height : ℚ
deriving DecidableEq, Repr

/-- `dropZone = { x: 0.5, y: 0.7, width: 0.3, height: 0.2 }`. -/
def dropZone : Zone := ⟨1/2, 7/10, 3/10, 1/5⟩

/-- `pinchThreshold = 0.05`. -/
def pinchThreshold : ℚ := 1/20

/-- Squared distance between thumb tip (landmark 4) and index tip (landmark 8). -/
def pinchDistSq (hand : Hand) : ℚ :=
  ((hand 4).x - (hand 8).x) * ((hand 4).x - (hand 8).x)
    + ((hand 4).y - (hand 8).y) * ((hand 4).y - (hand 8).y)

/-- `isPinching = distance < pinchThreshold`, with the square-compare encoding
of the source's `Math.sqrt(...) < 0.05`. -/
def handIsPinching (hand : Hand) : Bool :=
  decide (pinchDistSq hand < pinchThreshold * pinchThreshold)

/-- Pinch center: midpoint of thumb tip and index tip. -/
def pinchMid (hand : Hand) : Point :=
  ⟨((hand 4).x + (hand 8).x)/2, ((hand 4).y + (hand 8).y)/2⟩

/-- Generate-button center x in normalized units:
`(dropZoneX + dropZoneWidth/2 + 60) / canvas.width`. -/
def buttonCenterX (w : ℚ) : ℚ := dropZone.x + dropZone.width/2 + 60/w

/-- Generate-button center y in normalized units: `dropZoneY / canvas.height`. -/
def buttonCenterY : ℚ := dropZone.y

/-- Generate-button width in normalized units: `120 / canvas.width`. -/
def buttonWidth (w : ℚ) : ℚ := 120/w

/-- Generate-button height in normalized units: `40 / canvas.height`. -/
def buttonHeight (h : ℚ) : ℚ := 40/h

/-- The button containment test performed on pinch start. -/
def inGenerateButton (w h px py : ℚ) : Bool :=
  decide (buttonCenterX w - buttonWidth w/2 ≤ px ∧ px ≤ buttonCenterX w + buttonWidth w/2 ∧
    buttonCenterY - buttonHeight h/2 ≤ py ∧ py ≤ buttonCenterY + buttonHeight h/2)

/-- `tableSize = 60 / Math.min(canvas.width, canvas.height)`. -/
def tableHitRadius (w h : ℚ) : ℚ := 60 / min w h

/-- The for-loop with `break` over the tables on pinch start: the first table
whose center lies within `tableHitRadius` of the pinch point (square-compare
encoding of the source's `distToTable < tableSize`, faithful for positive
canvas dimensions) is flagged as dragging and its id returned. -/
def startDragHit (r px py : ℚ) : List TableObject → List TableObject × Option String
  | [] => ([], none)
  | t :: rest =>
    if (px - t.x) * (px - t.x) + (py - t.y) * (py - t.y) < r * r then
      ({ t with isDragging := true } :: rest, some t.id)
    else
      let p := startDragHit r px py rest
      (t :: p.1, p.2)

/-- `Math.max(0.05, Math.min(0.95, v))`. -/
def clampCoord (v : ℚ) : ℚ := max (1/20) (min (19/20) v)

/-- Update the first element satisfying `p` (the semantics of mutating the
result of `Array.prototype.find`). -/
def updateFirst (p : α → Bool) (f : α → α) : List α → List α
  | [] => []
  | x :: xs => if p x then f x :: xs else x :: updateFirst p f xs

/-- The drop-zone containment test performed on pinch release. -/
def inDropZone (x y : ℚ) : Bool :=
  decide (dropZone.x - dropZone.width/2 ≤ x ∧ x ≤ dropZone.x + dropZone.width/2 ∧
    dropZone.y - dropZone.height/2 ≤ y ∧ y ≤ dropZone.y + dropZone.height/2)

/-- The toast shown when generate is triggered with an empty drop zone. -/
def emptyDropToast : Toast :=
  ⟨"Please drop at least one table into the drop zone", ToastKind.error⟩

/-- Pinch start: button hit-test first (hover flag, one-shot latch running the
generate action), otherwise table hit-test; the pinch point is stored. -/
def pinchStart (w h px py : ℚ) (s : CoreState) : CoreState × List Effect :=
  if inGenerateButton w h px py then
    if !s.buttonClicked then
      if s.droppedTables.isEmpty then
        ({ s with
            generateButtonHover := true
            buttonClicked := true
            toast := some emptyDropToast
            pinch := ⟨true, px, py⟩ },
          [Effect.toastMsg emptyDropToast.message ToastKind.error])
      else
        let msg := "Creating chart with " ++ toString s.droppedTables.length ++ " table(s)"
        ({ s with
            generateButtonHover := true
            buttonClicked := true
            toast := some ⟨msg, ToastKind.info⟩
            pinch := ⟨true, px, py⟩ },
          [Effect.toastMsg msg ToastKind.info,
            Effect.fetchData s.droppedTables,
            Effect.scheduleShowChart])
    else
      ({ s with generateButtonHover := true, pinch := ⟨true, px, py⟩ }, [])
  else
    let p := startDragHit (tableHitRadius w h) px py s.tables
    let dragged' : Option String :=
      match p.2 with
      | some i => some i
      | none => s.draggedTable
    ({ s with tables := p.1, draggedTable := dragged', pinch := ⟨true, px, py⟩ }, [])

/-- Pinch continue: displace the dragged table by the pinch-point delta and
clamp both coordinates to `[0.05, 0.95]`; store the new pinch point. -/
def pinchContinue (px py : ℚ) (s : CoreState) : CoreState :=
  let move : TableObject → TableObject := fun t =>
    { t with
      x := clampCoord (t.x + (px - s.pinch.x))
      y := clampCoord (t.y + (py - s.pinch.y)) }
  let s' :=
    match s.draggedTable with
    | none => s
    | some i =>
      let tables' := updateFirst (fun (t : TableObject) => t.id == i) move s.tables
      { s with tables := tables' }
  { s' with pinch := ⟨true, px, py⟩ }

/-- Measured pinch release: reset hover flag and click latch, clear the
dragging flag, test drop-zone containment of the released table, and append
its name to the dropped list when contained and not already a member. -/
def pinchRelease (s : CoreState) : CoreState :=
  let s1 := { s with generateButtonHover := false, buttonClicked := false }
  let s2 :=
    match s1.draggedTable with
    | none => s1
    | some i =>
      match s1.tables.find? (fun (t : TableObject) => t.id == i) with
      | none => { s1 with draggedTable := none }
      | some t =>
        let clearDrag : TableObject → TableObject := fun u => { u with isDragging := false }
        let tables' := updateFirst (fun (u : TableObject) => u.id == i) clearDrag s1.tables
        let dropped' :=
          if inDropZone t.x t.y && !(s1.droppedTables.contains t.name) then
            s1.droppedTables ++ [t.name]
          else s1.droppedTables
        { s1 with tables := tables', droppedTables := dropped', draggedTable := none }
  { s2 with pinch := ⟨false, 0, 0⟩ }

/-- The release taken when no hands are detected while pinching: reset the
hover flag, clear the dragging flag and drag target, reset the pinch state.
(The source's this branch neither resets `buttonClickedRef` nor evaluates
drop-zone containment.) -/
def noHandsRelease (s : CoreState) : CoreState :=
  let s1 := { s with generateButtonHover := false }
  let s2 :=
    match s1.draggedTable with
    | none => s1
    | some i =>
      let clearDrag : TableObject → TableObject := fun u => { u with isDragging := false }
      let tables' := updateFirst (fun (u : TableObject) => u.id == i) clearDrag s1.tables
      { s1 with tables := tables', draggedTable := none }
  { s2 with pinch := ⟨false, 0, 0⟩ }

/-- The per-hand body of the landmark processing loop: pinch edge
classification into start / continue / release / none. -/
def processHand (w h : ℚ) (hand : Hand) (s : CoreState) : CoreState × List Effect :=
  if handIsPinching hand then
    let p := pinchMid hand
    if !s.pinch.isPinching then pinchStart w h p.x p.y s
    else (pinchContinue p.x p.y s, [])
  else if s.pinch.isPinching then (pinchRelease s, [])
  else (s, [])

/-- The `for` loop over `results.multiHandLandmarks`: every detected hand is
processed in order, threading the state. -/
def processHands (w h : ℚ) (s : CoreState) : List Hand → CoreState × List Effect
  | [] => (s, [])
  | hand :: rest =>
    let p := processHand w h hand s
    let q := processHands w h p.1 rest
    (q.1, p.2 ++ q.2)

/-- One tick of hand processing in manipulation mode: loop over the detected
hands when at least one is present, otherwise fire the no-hands release if a
pinch was in progress. -/
def handsStep (w h : ℚ) (frame : List Hand) (s : CoreState) : CoreState × List Effect :=
  if frame.isEmpty then
    if s.pinch.isPinching then (noHandsRelease s, []) else (s, [])
  else processHands w h s frame

/-- `showChartWithAnimation`: show the chart, enter the `entering` state and
record the transition start (its 800 ms timeout is `showChartSettle`). -/
def showChartWithAnimation (now : ℤ) (s : CoreState) : CoreState :=
  { s with
    showChart := true
    chartAnimationState := ChartState.entering
    chartAnimationStart := now }

/-- The 800 ms timeout body of `showChartWithAnimation`. -/
def showChartSettle (s : CoreState) : CoreState :=
  { s with chartAnimationState := ChartState.visible }

/-- `hideChartWithAnimation`: enter the `exiting` state and record the
transition start (its 600 ms timeout is `hideChartSettle`). -/
def hideChartWithAnimation (now : ℤ) (s : CoreState) : CoreState :=
  { s with chartAnimationState := ChartState.exiting, chartAnimationStart := now }

/-- The 600 ms timeout body of `hideChartWithAnimation`: hide the chart, reach
`hidden`, clear the fetched data and the dropped-table list. -/
def hideChartSettle (s : CoreState) : CoreState :=
  { s with
    showChart := false
    chartAnimationState := ChartState.hidden
    chartDataTables := []
    droppedTables := [] }

/-- The chart-mode branch of the render tick: swipe tracking on the first
hand's index fingertip, with completion
`|deltaX| > 0.3 ∧ |deltaY| < 0.2 ∧ elapsed < 1000` triggering
`hideChartWithAnimation`, and reset when `elapsed > 1000` or the index finger
is not extended. -/
def swipeChartStep (now : ℤ) (frame : List Hand) (s : CoreState) : CoreState × List Effect :=
  match frame with
  | [] => (s, [])
  | landmarks :: _ =>
    if (landmarks 8).y < (landmarks 6).y then
      let cx := (landmarks 8).x
      let cy := (landmarks 8).y
      if !s.swipe.isTracking then
        ({ s with swipe := ⟨true, cx, cy, cx, cy, now⟩ }, [])
      else
        let sw := { s.swipe with currentX := cx, currentY := cy }
        if 3/10 < |cx - sw.startX| ∧ |cy - sw.startY| < 1/5 ∧ now - sw.startTime < 1000 then
          let s' := hideChartWithAnimation now s
          ({ s' with swipe := { sw with isTracking := false } }, [Effect.swipeExit])
        else if 1000 < now - sw.startTime then
          ({ s with swipe := { sw with isTracking := false } }, [])
        else
          ({ s with swipe := sw }, [])
    else
      ({ s with swipe := { s.swipe with isTracking := false } }, [])

/-- One executed 30 fps render tick: the chart branch handles swipes and
returns early; otherwise the manipulation branch processes hands. -/
def renderTick (w h : ℚ) (now : ℤ) (frame : List Hand) (s : CoreState) :
    CoreState × List Effect :=
  if s.showChart then swipeChartStep now frame s else handsStep w h frame s

/-- Table-object creation when the table list first becomes available:
one object per name, laid out at `x = 0.1 + index * 0.15`, `y = 0.1`. -/
def createTableObjects (now : ℤ) (names : List String) : List TableObject :=
  names.enum.map fun p =>
    { id := p.2 ++ "-" ++ toString now ++ "-" ++ toString p.1,
      name := p.2,
      x := 1/10 + (p.1 : ℚ) * (3/20),
      y := 1/10,
      isDragging := false }

/-- The displayed table list: the available tables, or the demo fallback when
none were found. -/
def displayTablesOf (availableTables : List String) : List String :=
  if availableTables.length > 0 then availableTables
  else ["users", "posts", "comments", "products"]

/-- The tables-initialization effect body. -/
def initTables (now : ℤ) (availableTables : List String) : List TableObject :=
  createTableObjects now (displayTablesOf availableTables)

/-! ### Concrete states used to exercise the step functions -/

/-- A table sitting near the left edge, currently dragged (scenario D). -/
def scenarioDTable : TableObject := ⟨"orders-0-0", "orders", 1/50, 1/2, true⟩

/-- Mid-drag state for scenario D: pinching at the screen center while
dragging `scenarioDTable`. -/
def scenarioDState : CoreState :=
  { tables := [scenarioDTable]
    draggedTable := some "orders-0-0"
    droppedTables := []
    generateButtonHover := false
    buttonClicked := false
    pinch := ⟨true, 1/2, 1/2⟩
    swipe := ⟨false, 0, 0, 0, 0, 0⟩
    showChart := false
    chartAnimationState := ChartState.hidden
    chartAnimationStart := 0
    chartDataTables := []
    toast := none }

/-- A hand pinching at (0.4, 0.5): every landmark at that point, so the
thumb-index distance is 0 and the midpoint is (0.4, 0.5) — a displacement of
(−0.1, 0) from the pinch point of `scenarioDState`. -/
def scenarioDHand : Hand := fun _ => ⟨2/5, 1/2⟩

/-- A clearly open hand: thumb tip at the origin, all other landmarks at the
screen center, so the thumb-index distance is far above the pinch
threshold. -/
def openHand : Hand := fun i => if i = 4 then ⟨0, 0⟩ else ⟨1/2, 1/2⟩

/-- Mid-pinch state holding the generate latch, with the dragged table
sitting inside the drop zone — the state just before a release. -/
def releaseState : CoreState :=
  { tables := [⟨"orders-0-0", "orders", 1/2, 7/10, true⟩]
    draggedTable := some "orders-0-0"
    droppedTables := []
    generateButtonHover := true
    buttonClicked := true
    pinch := ⟨true, 1/2, 7/10⟩
    swipe := ⟨false, 0, 0, 0, 0, 0⟩
    showChart := false
    chartAnimationState := ChartState.hidden
    chartAnimationStart := 0
    chartDataTables := []
    toast := none }

/-- An idle state: nothing pinched, nothing dragged, chart hidden. -/
def idleState : CoreState :=
  { tables := []
    draggedTable := none
    droppedTables := []
    generateButtonHover := false
    buttonClicked := false
    pinch := ⟨false, 0, 0⟩
    swipe := ⟨false, 0, 0, 0, 0, 0⟩
    showChart := false
    chartAnimationState := ChartState.hidden
    chartAnimationStart := 0
    chartDataTables := []
    toast := none }

/-- Chart visible with a swipe in progress that started at time 0 at
(0.1, 0.5). -/
def swipeTrackState : CoreState :=
  { tables := []
    draggedTable := none
    droppedTables := ["orders"]
    generateButtonHover := false
    buttonClicked := false
    pinch := ⟨false, 0, 0⟩
    swipe := ⟨true, 1/10, 1/2, 1/10, 1/2, 0⟩
    showChart := true
    chartAnimationState := ChartState.visible
    chartAnimationStart := 0
    chartDataTables := ["orders"]
    toast := none }

/-- A hand with the index finger extended at (0.5, 0.5): the index tip
(landmark 8) is above (numerically less than) the PIP joint (landmark 6). -/
def swipeHand : Hand := fun i => if i = 6 then ⟨1/2, 3/5⟩ else ⟨1/2, 1/2⟩

/-- The same tracked swipe while the chart is still `entering`. -/
def enteringSwipeState : CoreState :=
  { swipeTrackState with chartAnimationState := ChartState.entering }

/-- A hand pinching at (0.7, 0.7) — a point inside the generate-button
rectangle for a 1×1 canvas. -/
def buttonHand : Hand := fun _ => ⟨7/10, 7/10⟩

/-! ### Helper lemmas -/

theorem clampCoord_mem (v : ℚ) : 1/20 ≤ clampCoord v ∧ clampCoord v ≤ 19/20 := by
  unfold clampCoord
  refine ⟨le_max_left _ _, max_le (by norm_num) (min_le_left _ _)⟩

theorem clampCoord_eq_self {v : ℚ} (h1 : 1/20 ≤ v) (h2 : v ≤ 19/20) : clampCoord v = v := by
  unfold clampCoord
  rw [min_eq_right h2, max_eq_right h1]

theorem clampCoord_idem (v : ℚ) : clampCoord (clampCoord v) = clampCoord v :=
  clampCoord_eq_self (clampCoord_mem v).1 (clampCoord_mem v).2

theorem find?_updateFirst {α : Type} (p : α → Bool) (f : α → α)
    (hpf : ∀ a, p a = true → p (f a) = true) :
    ∀ l : List α, (updateFirst p f l).find? p = (l.find? p).map f := by
  intro l
  induction l with
  | nil => rfl
  | cons x xs ih =>
    by_cases hx : p x = true
    · simp [updateFirst, hx, List.find?_cons_of_pos, hpf x hx]
    · have hx' : p x = false := by simpa using hx
      simp [updateFirst, hx', List.find?_cons_of_neg, ih]

theorem forall₂_updateFirst {α : Type} (R : α → α → Prop) (p : α → Bool) (f : α → α)
    (hrefl : ∀ a, R a a) (hf : ∀ a, p a = true → R a (f a)) :
    ∀ l : List α, List.Forall₂ R l (updateFirst p f l) := by
  intro l
  induction l with
  | nil => exact List.Forall₂.nil
  | cons x xs ih =>
    unfold updateFirst
    by_cases hx : p x = true
    · simp only [hx, if_true]
      exact List.Forall₂.cons (hf x hx) (List.forall₂_same.2 fun a _ => hrefl a)
    · have hx' : p x = false := by simpa using hx
      simp only [hx', Bool.false_eq_true, if_false]
      exact List.Forall₂.cons (hrefl x) ih

theorem pinchStart_pinch (w h px py : ℚ) (s : CoreState) :
    (pinchStart w h px py s).1.pinch = ⟨true, px, py⟩ := by
  unfold pinchStart
  repeat' split
  all_goals rfl

theorem pinchContinue_pinch (px py : ℚ) (s : CoreState) :
    (pinchContinue px py s).pinch = ⟨true, px, py⟩ := by
  unfold pinchContinue
  split
  all_goals rfl

theorem pinchRelease_pinch (s : CoreState) : (pinchRelease s).pinch = ⟨false, 0, 0⟩ := rfl

/-- On a processed pinching hand, the resulting pinch state is exactly
(true, midpoint). -/
theorem processHand_pinching_pinch (w h : ℚ) (hand : Hand) (s : CoreState)
    (hh : handIsPinching hand = true) :
    (processHand w h hand s).1.pinch = ⟨true, (pinchMid hand).x, (pinchMid hand).y⟩ := by
  unfold processHand
  rw [hh]
  by_cases hp : s.pinch.isPinching = true
  · simp only [hp, Bool.not_true, if_true, Bool.false_eq_true, if_false]
    exact pinchContinue_pinch _ _ s
  · have hp' : s.pinch.isPinching = false := by simpa using hp
    simp only [hp', Bool.not_false, if_true]
    exact pinchStart_pinch w h _ _ s

/-- On a processed non-pinching hand, the resulting pinch flag is false. -/
theorem processHand_not_pinching (w h : ℚ) (hand : Hand) (s : CoreState)
    (hh : handIsPinching hand = false) :
    (processHand w h hand s).1.pinch.isPinching = false := by
  unfold processHand
  rw [hh]
  by_cases hp : s.pinch.isPinching = true
  · simp only [Bool.false_eq_true, if_false, hp, if_true, pinchRelease_pinch]
  · have hp' : s.pinch.isPinching = false := by simpa using hp
    simp only [Bool.false_eq_true, if_false, hp']

/-- On a processed hand, pinching previously and now, the step is exactly the
pinch-continue step. -/
theorem processHand_continue (w h : ℚ) (hand : Hand) (s : CoreState)
    (hp : s.pinch.isPinching = true) (hh : handIsPinching hand = true) :
    processHand w h hand s = (pinchContinue (pinchMid hand).x (pinchMid hand).y s, []) := by
  unfold processHand
  rw [hh]
  simp only [hp, Bool.not_true, Bool.false_eq_true, if_false, if_true]

theorem scenarioDHand_pinching : handIsPinching scenarioDHand = true := by
  simp only [handIsPinching, decide_eq_true_eq, pinchDistSq, scenarioDHand, pinchThreshold]
  norm_num

theorem scenarioD_mid : pinchMid scenarioDHand = ⟨2/5, 1/2⟩ := by
  simp only [pinchMid, scenarioDHand]
  norm_num

/-- Concrete evaluation of the scenario-D continue step: the dragged table's
x coordinate is clamped up to 0.05. -/
theorem scenarioD_tables :
    (processHand 1 1 scenarioDHand scenarioDState).1.tables
      = [⟨"orders-0-0", "orders", 1/20, 1/2, true⟩] := by
  have hx : clampCoord (1/50 + (2/5 - 1/2)) = 1/20 := by
    unfold clampCoord
    rw [min_eq_right (by norm_num), max_eq_left (by norm_num)]
  have hy : clampCoord (1/2 + (1/2 - 1/2)) = 1/2 := by
    unfold clampCoord
    rw [min_eq_right (by norm_num), max_eq_right (by norm_num)]
    norm_num
  rw [processHand_continue 1 1 scenarioDHand scenarioDState rfl scenarioDHand_pinching,
    scenarioD_mid]
  show (pinchContinue (2/5) (1/2) scenarioDState).tables = _
  simp only [pinchContinue, scenarioDState, scenarioDTable, updateFirst, beq_self_eq_true,
    eq_self_iff_true, if_true]
  rw [hx, hy]

/-- C4: for every frame with a detected hand, the pinch flag after processing
the hand holds iff the Euclidean distance (in normalized coordinates) between
thumb tip (landmark 4) and index fingertip (landmark 8) is strictly less than
0.05, and when pinching the stored pinch point is the midpoint of the two
landmarks. -/
theorem pinch_iff_distance_lt (w h : ℚ) (hand : Hand) (s : CoreState) :
    ((processHand w h hand s).1.pinch.isPinching = true ↔
      Real.sqrt ((((hand 4).x - (hand 8).x : ℚ) : ℝ)^2 + (((hand 4).y - (hand 8).y : ℚ) : ℝ)^2)
        < 1/20) ∧
    ((processHand w h hand s).1.pinch.isPinching = true →
      (processHand w h hand s).1.pinch.x = ((hand 4).x + (hand 8).x)/2 ∧
      (processHand w h hand s).1.pinch.y = ((hand 4).y + (hand 8).y)/2) := by
  have hs : Real.sqrt ((((hand 4).x - (hand 8).x : ℚ) : ℝ)^2
        + (((hand 4).y - (hand 8).y : ℚ) : ℝ)^2) < 1/20 ↔
      pinchDistSq hand < pinchThreshold * pinchThreshold := by
    rw [Real.sqrt_lt' (by norm_num : (0:ℝ) < 1/20)]
    rw [show ((((hand 4).x - (hand 8).x : ℚ) : ℝ)^2 + (((hand 4).y - (hand 8).y : ℚ) : ℝ)^2)
        = ((pinchDistSq hand : ℚ) : ℝ) by unfold pinchDistSq; push_cast; ring]
    rw [show ((1:ℝ)/20)^2 = ((pinchThreshold * pinchThreshold : ℚ) : ℝ) by
      unfold pinchThreshold; push_cast; ring]
    exact Rat.cast_lt
  by_cases hh : handIsPinching hand = true
  · have hpin := processHand_pinching_pinch w h hand s hh
    have hd : pinchDistSq hand < pinchThreshold * pinchThreshold := by
      simpa [handIsPinching] using hh
    refine ⟨?_, ?_⟩
    · rw [hpin]
      simpa using hs.2 hd
    · intro _
      rw [hpin]
      exact ⟨rfl, rfl⟩
  · have hh' : handIsPinching hand = false := by simpa using hh
    have hd : ¬ pinchDistSq hand < pinchThreshold * pinchThreshold := by
      simpa [handIsPinching] using hh'
    have hnp := processHand_not_pinching w h hand s hh'
    refine ⟨?_, ?_⟩
    · rw [hnp]
      simp only [Bool.false_eq_true, false_iff]
      intro hcon
      exact hd (hs.1 hcon)
    · intro hcon
      rw [hnp] at hcon
      exact absurd hcon (by simp)

/-- C4 witness: a concrete hand at zero pinch distance is pinching with the
pinch point at the landmarks' midpoint. -/
theorem pinch_iff_distance_lt_witness :
    (processHand 1 1 scenarioDHand scenarioDState).1.pinch.x
        = ((scenarioDHand 4).x + (scenarioDHand 8).x)/2 ∧
    (processHand 1 1 scenarioDHand scenarioDState).1.pinch.y
        = ((scenarioDHand 4).y + (scenarioDHand 8).y)/2 :=
  (pinch_iff_distance_lt 1 1 scenarioDHand scenarioDState).2
    (by rw [processHand_pinching_pinch 1 1 scenarioDHand scenarioDState scenarioDHand_pinching])

/-- C3: after every pinch-continue step, the dragged table's two coordinates
lie within [0.05, 0.95] whatever the displacement; the clamp is idempotent at
the boundary; and the scenario-D drag, starting at x = 0.02 with displacement
(−0.1, 0), yields x = 0.05 rather than −0.08. -/
theorem continue_step_clamped (w h : ℚ) (hand : Hand) (s : CoreState) (i : String)
    (t : TableObject)
    (hp : s.pinch.isPinching = true) (hh : handIsPinching hand = true)
    (hd : s.draggedTable = some i)
    (ht : (processHand w h hand s).1.tables.find? (fun (u : TableObject) => u.id == i)
        = some t) :
    (1/20 ≤ t.x ∧ t.x ≤ 19/20 ∧ 1/20 ≤ t.y ∧ t.y ≤ 19/20) ∧
    (∀ v : ℚ, clampCoord (clampCoord v) = clampCoord v) ∧
    (processHand 1 1 scenarioDHand scenarioDState).1.tables.map TableObject.x = [1/20] := by
  refine ⟨?_, clampCoord_idem, by rw [scenarioD_tables]; rfl⟩
  have hstep : (processHand w h hand s).1 = pinchContinue (pinchMid hand).x (pinchMid hand).y s := by
    unfold processHand
    rw [hh]
    simp only [hp, Bool.not_true, Bool.false_eq_true, if_false, if_true]
  rw [hstep] at ht
  simp only [pinchContinue, hd] at ht
  have hfu := find?_updateFirst (fun (u : TableObject) => u.id == i)
    (fun u => { u with
      x := clampCoord (u.x + ((pinchMid hand).x - s.pinch.x))
      y := clampCoord (u.y + ((pinchMid hand).y - s.pinch.y)) })
    (fun a ha => ha) s.tables
  rw [hfu] at ht
  cases hf : s.tables.find? (fun (u : TableObject) => u.id == i) with
  | none => rw [hf] at ht; exact absurd ht (by simp)
  | some t0 =>
    rw [hf] at ht
    have ht2 := Option.some.inj ht
    rw [← ht2]
    exact ⟨(clampCoord_mem _).1, (clampCoord_mem _).2, (clampCoord_mem _).1,
      (clampCoord_mem _).2⟩

/-- C3 witness: the scenario-D continue step applied concretely, discharging
the hypotheses at the mid-drag state. -/
theorem continue_step_clamped_witness :
    (1/20 ≤ (⟨"orders-0-0", "orders", 1/20, 1/2, true⟩ : TableObject).x ∧
      (⟨"orders-0-0", "orders", 1/20, 1/2, true⟩ : TableObject).x ≤ 19/20 ∧
      1/20 ≤ (⟨"orders-0-0", "orders", 1/20, 1/2, true⟩ : TableObject).y ∧
      (⟨"orders-0-0", "orders", 1/20, 1/2, true⟩ : TableObject).y ≤ 19/20) :=
  (continue_step_clamped 1 1 scenarioDHand scenarioDState "orders-0-0"
    ⟨"orders-0-0", "orders", 1/20, 1/2, true⟩
    rfl scenarioDHand_pinching rfl
    (by rw [scenarioD_tables]; simp [List.find?])).1

/-- C9: a pinch-continue step changes at most the dragged table's x and y:
the dropped list, hover flag, click latch and drag target are unchanged,
every table keeps its id, name and dragging flag, tables other than the drag
target are untouched, and with no drag target only the pinch point changes. -/
theorem continue_step_frame_effect (w h : ℚ) (hand : Hand) (s : CoreState)
    (hp : s.pinch.isPinching = true) (hh : handIsPinching hand = true) :
    ((processHand w h hand s).1.droppedTables = s.droppedTables ∧
      (processHand w h hand s).1.generateButtonHover = s.generateButtonHover ∧
      (processHand w h hand s).1.buttonClicked = s.buttonClicked ∧
      (processHand w h hand s).1.draggedTable = s.draggedTable) ∧
    List.Forall₂ (fun t t' : TableObject => t.id = t'.id ∧ t.name = t'.name ∧
        t.isDragging = t'.isDragging ∧ (s.draggedTable ≠ some t.id → t = t'))
      s.tables (processHand w h hand s).1.tables ∧
    (s.draggedTable = none →
      (processHand w h hand s).1
        = { s with pinch := ⟨true, (pinchMid hand).x, (pinchMid hand).y⟩ }) := by
  rw [processHand_continue w h hand s hp hh]
  refine ⟨?_, ?_, ?_⟩
  · cases hd : s.draggedTable with
    | none => simp [pinchContinue, hd]
    | some i => simp [pinchContinue, hd]
  · cases hd : s.draggedTable with
    | none =>
      simp only [pinchContinue, hd]
      exact List.forall₂_same.2 fun a _ => ⟨rfl, rfl, rfl, fun _ => rfl⟩
    | some i =>
      simp only [pinchContinue, hd]
      refine forall₂_updateFirst _ _ _ (fun a => ⟨rfl, rfl, rfl, fun _ => rfl⟩) ?_ s.tables
      intro a ha
      refine ⟨rfl, rfl, rfl, fun hne => ?_⟩
      exfalso
      apply hne
      have hai : a.id = i := by simpa using ha
      rw [hai]
  · intro hd0
    simp only [pinchContinue, hd0]

/-- C9 witness: frame-effect equalities at the concrete scenario-D step. -/
theorem continue_step_frame_effect_witness :
    (processHand 1 1 scenarioDHand scenarioDState).1.droppedTables
        = scenarioDState.droppedTables ∧
    (processHand 1 1 scenarioDHand scenarioDState).1.generateButtonHover
        = scenarioDState.generateButtonHover ∧
    (processHand 1 1 scenarioDHand scenarioDState).1.buttonClicked
        = scenarioDState.buttonClicked ∧
    (processHand 1 1 scenarioDHand scenarioDState).1.draggedTable
        = scenarioDState.draggedTable :=
  (continue_step_frame_effect 1 1 scenarioDHand scenarioDState rfl
    scenarioDHand_pinching).1

theorem pinchStart_dropped (w h px py : ℚ) (s : CoreState) :
    (pinchStart w h px py s).1.droppedTables = s.droppedTables := by
  unfold pinchStart
  repeat' split
  all_goals rfl

theorem pinchContinue_dropped (px py : ℚ) (s : CoreState) :
    (pinchContinue px py s).droppedTables = s.droppedTables := by
  cases hd : s.draggedTable <;> simp [pinchContinue, hd]

theorem noHandsRelease_dropped (s : CoreState) :
    (noHandsRelease s).droppedTables = s.droppedTables := by
  cases hd : s.draggedTable <;> simp [noHandsRelease, hd]

/-- A measured release leaves the dropped list unchanged or appends a single
name that was not yet a member. -/
theorem pinchRelease_dropped (s : CoreState) :
    (pinchRelease s).droppedTables = s.droppedTables ∨
    ∃ n, n ∉ s.droppedTables ∧ (pinchRelease s).droppedTables = s.droppedTables ++ [n] := by
  unfold pinchRelease
  cases hd : s.draggedTable with
  | none => left; rfl
  | some i =>
    simp only [hd]
    cases hf : s.tables.find? (fun (u : TableObject) => u.id == i) with
    | none => left; rfl
    | some t =>
      by_cases hc : (inDropZone t.x t.y && !(s.droppedTables.contains t.name)) = true
      · right
        refine ⟨t.name, ?_, ?_⟩
        · have hconj := hc
          rw [Bool.and_eq_true] at hconj
          have hcontains : s.droppedTables.contains t.name = false := by
            simpa using hconj.2
          simpa using hcontains
        · simp only [hc, if_true]
      · have hc' : (inDropZone t.x t.y && !(s.droppedTables.contains t.name)) = false := by
          simpa using hc
        left
        simp only [hc', Bool.false_eq_true, if_false]

/-- Each processed hand leaves the dropped list an extension of the previous
one, preserving freedom from duplicates. -/
theorem processHand_dropped (w h : ℚ) (hand : Hand) (s : CoreState) :
    ∃ t, (processHand w h hand s).1.droppedTables = s.droppedTables ++ t ∧
      (s.droppedTables.Nodup → (processHand w h hand s).1.droppedTables.Nodup) := by
  by_cases hh : handIsPinching hand = true
  · by_cases hp : s.pinch.isPinching = true
    · rw [processHand_continue w h hand s hp hh]
      exact ⟨[], by simp [pinchContinue_dropped],
        fun hn => by rw [pinchContinue_dropped]; exact hn⟩
    · have hp' : s.pinch.isPinching = false := by simpa using hp
      have hred : processHand w h hand s
          = pinchStart w h (pinchMid hand).x (pinchMid hand).y s := by
        unfold processHand
        rw [hh]
        simp only [hp', Bool.not_false, if_true]
      rw [hred]
      exact ⟨[], by simp [pinchStart_dropped],
        fun hn => by rw [pinchStart_dropped]; exact hn⟩
  · have hh' : handIsPinching hand = false := by simpa using hh
    by_cases hp : s.pinch.isPinching = true
    · have hred : processHand w h hand s = (pinchRelease s, []) := by
        unfold processHand
        rw [hh']
        simp only [Bool.false_eq_true, if_false, hp, if_true]
      rw [hred]
      rcases pinchRelease_dropped s with hsame | ⟨n, hn, happ⟩
      · exact ⟨[], by simp [hsame], fun hnd => by rw [hsame]; exact hnd⟩
      · exact ⟨[n], happ, fun hnd => by rw [happ]; simp [List.nodup_append, hnd, hn]⟩
    · have hp' : s.pinch.isPinching = false := by simpa using hp
      have hred : processHand w h hand s = (s, []) := by
        unfold processHand
        rw [hh']
        simp only [Bool.false_eq_true, if_false, hp']
      rw [hred]
      exact ⟨[], by simp, fun hnd => hnd⟩

theorem processHands_dropped (w h : ℚ) (frame : List Hand) :
    ∀ s : CoreState,
      ∃ t, (processHands w h s frame).1.droppedTables = s.droppedTables ++ t ∧
        (s.droppedTables.Nodup → (processHands w h s frame).1.droppedTables.Nodup) := by
  induction frame with
  | nil =>
    intro s
    exact ⟨[], by simp [processHands], fun hn => by simpa [processHands] using hn⟩
  | cons hand rest ih =>
    intro s
    obtain ⟨t1, e1, n1⟩ := processHand_dropped w h hand s
    obtain ⟨t2, e2, n2⟩ := ih (processHand w h hand s).1
    refine ⟨t1 ++ t2, ?_, ?_⟩
    · show (processHands w h (processHand w h hand s).1 rest).1.droppedTables = _
      rw [e2, e1, List.append_assoc]
    · intro hn
      exact n2 (n1 hn)

theorem handsStep_dropped (w h : ℚ) (frame : List Hand) (s : CoreState) :
    ∃ t, (handsStep w h frame s).1.droppedTables = s.droppedTables ++ t ∧
      (s.droppedTables.Nodup → (handsStep w h frame s).1.droppedTables.Nodup) := by
  unfold handsStep
  cases frame with
  | nil =>
    by_cases hp : s.pinch.isPinching = true
    · simp only [List.isEmpty_nil, if_true, hp]
      exact ⟨[], by simp [noHandsRelease_dropped],
        fun hn => by rw [noHandsRelease_dropped]; exact hn⟩
    · have hp' : s.pinch.isPinching = false := by simpa using hp
      simp only [List.isEmpty_nil, if_true, hp', Bool.false_eq_true, if_false]
      exact ⟨[], by simp, fun hn => hn⟩
  | cons a rest =>
    simp only [List.isEmpty_cons, Bool.false_eq_true, if_false]
    exact processHands_dropped w h (a :: rest) s

theorem swipeChartStep_dropped (now : ℤ) (frame : List Hand) (s : CoreState) :
    (swipeChartStep now frame s).1.droppedTables = s.droppedTables := by
  cases frame with
  | nil => rfl
  | cons a rest =>
    simp only [swipeChartStep]
    repeat' split
    all_goals simp [hideChartWithAnimation]

/-- C6: DroppedSet is an insertion-ordered set: a manipulation tick only ever
extends it at the end, never introducing a duplicate (a release of an
already-member name leaves it unchanged), the chart-mode swipe tick preserves
it, and the single clearing point is the transition that reaches `hidden`. -/
theorem droppedTables_set_semantics (w h : ℚ) (frame : List Hand) (s : CoreState)
    (hnd : s.droppedTables.Nodup) :
    ((∃ t, (handsStep w h frame s).1.droppedTables = s.droppedTables ++ t) ∧
      (handsStep w h frame s).1.droppedTables.Nodup) ∧
    (∀ (now : ℤ) (f2 : List Hand) (s2 : CoreState),
      (swipeChartStep now f2 s2).1.droppedTables = s2.droppedTables) ∧
    (∀ (now : ℤ) (s2 : CoreState),
      (showChartWithAnimation now s2).droppedTables = s2.droppedTables ∧
      (showChartSettle s2).droppedTables = s2.droppedTables ∧
      (hideChartWithAnimation now s2).droppedTables = s2.droppedTables) ∧
    (∀ s2 : CoreState, (hideChartSettle s2).droppedTables = []
      ∧ (hideChartSettle s2).chartAnimationState = ChartState.hidden) ∧
    (∀ (s2 : CoreState) (i : String) (t2 : TableObject), s2.draggedTable = some i →
      s2.tables.find? (fun (u : TableObject) => u.id == i) = some t2 →
      t2.name ∈ s2.droppedTables →
      (pinchRelease s2).droppedTables = s2.droppedTables) := by
  obtain ⟨t, e, n⟩ := handsStep_dropped w h frame s
  refine ⟨⟨⟨t, e⟩, n hnd⟩, swipeChartStep_dropped, fun now s2 => ⟨rfl, rfl, rfl⟩,
    fun s2 => ⟨rfl, rfl⟩, ?_⟩
  intro s2 i t2 hd hf hm
  unfold pinchRelease
  simp only [hd, hf]
  have hc : s2.droppedTables.contains t2.name = true := by simpa using hm
  have hfalse : (inDropZone t2.x t2.y && !(s2.droppedTables.contains t2.name)) = false := by
    rw [hc]
    simp
  simp only [hfalse, Bool.false_eq_true, if_false]

/-- C6 witness: at a concrete duplicate-free state, the tick keeps the
dropped list duplicate-free. -/
theorem droppedTables_set_semantics_witness :
    (handsStep 1 1 [] scenarioDState).1.droppedTables.Nodup :=
  (droppedTables_set_semantics 1 1 [] scenarioDState (by simp [scenarioDState])).1.2

/-- On a processed hand, not pinching now but pinching before, the step is
exactly the measured release. -/
theorem processHand_release (w h : ℚ) (hand : Hand) (s : CoreState)
    (hp : s.pinch.isPinching = true) (hh : handIsPinching hand = false) :
    processHand w h hand s = (pinchRelease s, []) := by
  unfold processHand
  rw [hh]
  simp only [Bool.false_eq_true, if_false, hp, if_true]

theorem openHand_not_pinching : handIsPinching openHand = false := by
  simp only [handIsPinching, pinchDistSq, openHand, pinchThreshold]
  norm_num

theorem handsStep_cons (w h : ℚ) (hand : Hand) (rest : List Hand) (s : CoreState) :
    handsStep w h (hand :: rest) s = processHands w h s (hand :: rest) := by
  unfold handsStep
  simp

theorem processHands_single (w h : ℚ) (hand : Hand) (s : CoreState) :
    (processHands w h s [hand]).1 = (processHand w h hand s).1 := rfl

theorem inDropZone_of_releaseState : inDropZone (1/2) (7/10) = true := by
  simp only [inDropZone, decide_eq_true_eq, dropZone]
  norm_num

/-- Evaluation of the measured release at `releaseState`: the drop commits. -/
theorem releaseState_measured :
    (handsStep 1 1 [openHand] releaseState).1 = pinchRelease releaseState ∧
    (pinchRelease releaseState).buttonClicked = false ∧
    (pinchRelease releaseState).droppedTables = ["orders"] := by
  refine ⟨?_, rfl, ?_⟩
  · rw [handsStep_cons, processHands_single,
      processHand_release 1 1 openHand releaseState rfl openHand_not_pinching]
  · simp [pinchRelease, releaseState, List.find?]
    simp only [inDropZone, decide_eq_true_eq, dropZone]
    norm_num

/-- C1 counterexample: from `releaseState` (pinching, latch held, dragged
table inside the drop zone), the zero-hands tick and the measured-release
tick produce different states — the measured release resets the click latch
and commits the drop, the zero-hands release does neither. -/
theorem noHands_release_differs :
    (handsStep 1 1 [] releaseState).1.buttonClicked = true ∧
    (handsStep 1 1 [openHand] releaseState).1.buttonClicked = false ∧
    (handsStep 1 1 [] releaseState).1.droppedTables = [] ∧
    (handsStep 1 1 [openHand] releaseState).1.droppedTables = ["orders"] ∧
    (handsStep 1 1 [] releaseState).1 ≠ (handsStep 1 1 [openHand] releaseState).1 := by
  obtain ⟨hm, hbc, hdrop⟩ := releaseState_measured
  refine ⟨rfl, by rw [hm]; exact hbc, rfl, by rw [hm]; exact hdrop, ?_⟩
  intro heq
  have hb : (handsStep 1 1 [] releaseState).1.buttonClicked
      = (handsStep 1 1 [openHand] releaseState).1.buttonClicked := by rw [heq]
  rw [hm] at hb
  rw [hbc] at hb
  exact Bool.noConfusion hb

/-- C1 (amended): a zero-hands frame while pinching fires a partial release:
it resets the pinch state and the hover flag, clears the dragging flag of the
drag target (positions untouched) and drops the drag target — but it leaves
the button-clicked latch unchanged and never performs the drop-zone test, so
the dropped list is unchanged. -/
theorem noHands_release_effects (w h : ℚ) (s : CoreState)
    (hp : s.pinch.isPinching = true) :
    (handsStep w h [] s).1 = noHandsRelease s ∧
    (noHandsRelease s).droppedTables = s.droppedTables ∧
    (noHandsRelease s).buttonClicked = s.buttonClicked ∧
    (noHandsRelease s).generateButtonHover = false ∧
    (noHandsRelease s).draggedTable = none ∧
    (noHandsRelease s).pinch = ⟨false, 0, 0⟩ ∧
    List.Forall₂ (fun t t' : TableObject => t.id = t'.id ∧ t.name = t'.name ∧
        t.x = t'.x ∧ t.y = t'.y ∧ (s.draggedTable ≠ some t.id → t = t'))
      s.tables (noHandsRelease s).tables ∧
    (∀ (i : String) (t0 : TableObject), s.draggedTable = some i →
      s.tables.find? (fun (u : TableObject) => u.id == i) = some t0 →
      (noHandsRelease s).tables.find? (fun (u : TableObject) => u.id == i)
        = some { t0 with isDragging := false }) := by
  refine ⟨by unfold handsStep; simp [hp], noHandsRelease_dropped s, ?_, ?_, ?_, ?_, ?_, ?_⟩
  · cases hd : s.draggedTable <;> simp [noHandsRelease, hd]
  · cases hd : s.draggedTable <;> simp [noHandsRelease, hd]
  · cases hd : s.draggedTable <;> simp [noHandsRelease, hd]
  · cases hd : s.draggedTable <;> simp [noHandsRelease, hd]
  · cases hd : s.draggedTable with
    | none =>
      simp only [noHandsRelease, hd]
      exact List.forall₂_same.2 fun a _ => ⟨rfl, rfl, rfl, rfl, fun _ => rfl⟩
    | some i =>
      simp only [noHandsRelease, hd]
      refine forall₂_updateFirst _ _ _ (fun a => ⟨rfl, rfl, rfl, rfl, fun _ => rfl⟩) ?_ s.tables
      intro a ha
      refine ⟨rfl, rfl, rfl, rfl, fun hne => ?_⟩
      exfalso
      apply hne
      have hai : a.id = i := by simpa using ha
      rw [hai]
  · intro i t0 hdi hf0
    simp only [noHandsRelease, hdi]
    have hfu := find?_updateFirst (fun (u : TableObject) => u.id == i)
      (fun u => { u with isDragging := false }) (fun a ha => ha) s.tables
    rw [hfu, hf0]
    rfl

/-- C1 amended-claim witness: the partial release evaluated at
`releaseState`. -/
theorem noHands_release_effects_witness :
    (handsStep 1 1 [] releaseState).1 = noHandsRelease releaseState ∧
    (noHandsRelease releaseState).droppedTables = releaseState.droppedTables ∧
    (noHandsRelease releaseState).buttonClicked = releaseState.buttonClicked :=
  ⟨(noHands_release_effects 1 1 releaseState rfl).1,
    (noHands_release_effects 1 1 releaseState rfl).2.1,
    (noHands_release_effects 1 1 releaseState rfl).2.2.1⟩

/-- On a processed hand, neither pinching before nor now, the step is the
identity. -/
theorem processHand_noop (w h : ℚ) (hand : Hand) (s : CoreState)
    (hp : s.pinch.isPinching = false) (hh : handIsPinching hand = false) :
    processHand w h hand s = (s, []) := by
  unfold processHand
  rw [hh]
  simp only [Bool.false_eq_true, if_false, hp]

/-- On a processed pinching hand with no pinch in progress, the step is
exactly the pinch-start step at the hand's midpoint. -/
theorem processHand_start (w h : ℚ) (hand : Hand) (s : CoreState)
    (hp : s.pinch.isPinching = false) (hh : handIsPinching hand = true) :
    processHand w h hand s = pinchStart w h (pinchMid hand).x (pinchMid hand).y s := by
  unfold processHand
  rw [hh]
  simp only [hp, Bool.not_false, if_true]

/-- C5 counterexample: with two hands — the first open, the second pinching —
the tick ends with the pinch flag set, while with the first hand alone it
stays clear: the second hand's landmarks drive the pinch state. -/
theorem second_hand_drives_pinch :
    (handsStep 1 1 [openHand, scenarioDHand] idleState).1.pinch.isPinching = true ∧
    (handsStep 1 1 [openHand] idleState).1.pinch.isPinching = false := by
  have h1 : processHand 1 1 openHand idleState = (idleState, []) :=
    processHand_noop 1 1 openHand idleState rfl openHand_not_pinching
  constructor
  · have h2 : (handsStep 1 1 [openHand, scenarioDHand] idleState).1
        = (processHand 1 1 scenarioDHand idleState).1 := by
      rw [handsStep_cons]
      show (processHands 1 1 (processHand 1 1 openHand idleState).1 [scenarioDHand]).1 = _
      rw [h1]
      exact processHands_single 1 1 scenarioDHand idleState
    rw [h2, processHand_pinching_pinch 1 1 scenarioDHand idleState scenarioDHand_pinching]
  · rw [handsStep_cons, processHands_single, h1]
    rfl

/-- C5 (amended): the chart-mode swipe branch reads only the first hand's
landmarks, while the manipulation branch processes every detected hand in
order, threading the state through each. -/
theorem swipe_first_hand_pinch_all_hands :
    (∀ (now : ℤ) (hand : Hand) (rest : List Hand) (s : CoreState),
      swipeChartStep now (hand :: rest) s = swipeChartStep now [hand] s) ∧
    (∀ (w h : ℚ) (hand : Hand) (rest : List Hand) (s : CoreState),
      handsStep w h (hand :: rest) s
        = ((processHands w h (processHand w h hand s).1 rest).1,
            (processHand w h hand s).2
              ++ (processHands w h (processHand w h hand s).1 rest).2)) := by
  constructor
  · intro now hand rest s
    rfl
  · intro w h hand rest s
    rw [handsStep_cons]
    rfl

theorem swipeHand_extended : (swipeHand 8).y < (swipeHand 6).y := by
  simp only [swipeHand]
  norm_num

/-- Branch analysis of the swipe step on a tracked frame with the index
finger extended: completion fires the exit, a strictly late frame resets
tracking silently, and anything else just updates the current point. -/
theorem swipeChartStep_cases (now : ℤ) (hand : Hand) (rest : List Hand) (s : CoreState)
    (hext : (hand 8).y < (hand 6).y) (htr : s.swipe.isTracking = true) :
    ((3/10 < |(hand 8).x - s.swipe.startX| ∧ |(hand 8).y - s.swipe.startY| < 1/5
        ∧ now - s.swipe.startTime < 1000) →
      (swipeChartStep now (hand :: rest) s).1.chartAnimationState = ChartState.exiting ∧
      (swipeChartStep now (hand :: rest) s).1.swipe.isTracking = false ∧
      (swipeChartStep now (hand :: rest) s).2 = [Effect.swipeExit]) ∧
    (¬(3/10 < |(hand 8).x - s.swipe.startX| ∧ |(hand 8).y - s.swipe.startY| < 1/5
        ∧ now - s.swipe.startTime < 1000) → 1000 < now - s.swipe.startTime →
      (swipeChartStep now (hand :: rest) s).1.swipe.isTracking = false ∧
      (swipeChartStep now (hand :: rest) s).2 = [] ∧
      (swipeChartStep now (hand :: rest) s).1.chartAnimationState
        = s.chartAnimationState) ∧
    (¬(3/10 < |(hand 8).x - s.swipe.startX| ∧ |(hand 8).y - s.swipe.startY| < 1/5
        ∧ now - s.swipe.startTime < 1000) → ¬(1000 < now - s.swipe.startTime) →
      (swipeChartStep now (hand :: rest) s).1.swipe.isTracking = true ∧
      (swipeChartStep now (hand :: rest) s).2 = [] ∧
      (swipeChartStep now (hand :: rest) s).1.chartAnimationState
        = s.chartAnimationState) := by
  refine ⟨?_, ?_, ?_⟩
  · intro hc
    have hred : swipeChartStep now (hand :: rest) s
        = ({ hideChartWithAnimation now s with
            swipe := ⟨false, s.swipe.startX, s.swipe.startY, (hand 8).x, (hand 8).y,
              s.swipe.startTime⟩ }, [Effect.swipeExit]) := by
      simp only [swipeChartStep]
      rw [if_pos hext]
      simp only [htr, Bool.not_true, Bool.false_eq_true, if_false]
      rw [if_pos hc]
    rw [hred]
    exact ⟨rfl, rfl, rfl⟩
  · intro hc hlate
    have hred : swipeChartStep now (hand :: rest) s
        = ({ s with
            swipe := ⟨false, s.swipe.startX, s.swipe.startY, (hand 8).x, (hand 8).y,
              s.swipe.startTime⟩ }, []) := by
      simp only [swipeChartStep]
      rw [if_pos hext]
      simp only [htr, Bool.not_true, Bool.false_eq_true, if_false]
      rw [if_neg hc, if_pos hlate]
    rw [hred]
    exact ⟨rfl, rfl, rfl⟩
  · intro hc hlate
    have hred : swipeChartStep now (hand :: rest) s
        = ({ s with
            swipe := ⟨s.swipe.isTracking, s.swipe.startX, s.swipe.startY, (hand 8).x,
              (hand 8).y, s.swipe.startTime⟩ }, []) := by
      simp only [swipeChartStep]
      rw [if_pos hext]
      simp only [htr, Bool.not_true, Bool.false_eq_true, if_false]
      rw [if_neg hc, if_neg hlate]
    rw [hred]
    exact ⟨htr, rfl, rfl⟩

/-- C7 (amended): when the index finger stays extended on a tracked swipe,
elapsed strictly greater than 1000 ms without completion stops tracking with
no event and no view change; at exactly 1000 ms elapsed neither the
completion (which requires elapsed < 1000) nor the reset (which requires
elapsed > 1000) fires, so tracking continues with no event. -/
theorem swipe_timeout_strict (now : ℤ) (hand : Hand) (rest : List Hand) (s : CoreState)
    (hext : (hand 8).y < (hand 6).y) (htr : s.swipe.isTracking = true) :
    (1000 < now - s.swipe.startTime →
      (swipeChartStep now (hand :: rest) s).1.swipe.isTracking = false ∧
      (swipeChartStep now (hand :: rest) s).2 = [] ∧
      (swipeChartStep now (hand :: rest) s).1.chartAnimationState
        = s.chartAnimationState) ∧
    (now - s.swipe.startTime = 1000 →
      (swipeChartStep now (hand :: rest) s).1.swipe.isTracking = true ∧
      (swipeChartStep now (hand :: rest) s).2 = []) := by
  obtain ⟨_, hmid, hkeep⟩ := swipeChartStep_cases now hand rest s hext htr
  constructor
  · intro hgt
    exact hmid (fun hcon => by omega) hgt
  · intro heq
    obtain ⟨h1, h2, _⟩ := hkeep (fun hcon => by omega) (by omega)
    exact ⟨h1, h2⟩

/-- C7 amended-claim witness: at 1001 ms elapsed tracking stops, at exactly
1000 ms it continues, both without an event. -/
theorem swipe_timeout_strict_witness :
    (swipeChartStep 1001 [swipeHand] swipeTrackState).1.swipe.isTracking = false ∧
    (swipeChartStep 1000 [swipeHand] swipeTrackState).1.swipe.isTracking = true :=
  ⟨((swipe_timeout_strict 1001 swipeHand [] swipeTrackState swipeHand_extended rfl).1
      (by norm_num [swipeTrackState])).1,
    ((swipe_timeout_strict 1000 swipeHand [] swipeTrackState swipeHand_extended rfl).2
      (by norm_num [swipeTrackState])).1⟩

/-- C7 counterexample: at exactly 1000 ms elapsed without completion the
tracker does NOT stop — tracking continues (and no event fires), refuting the
claim that timeout behavior covers `elapsed = 1000 ms`. -/
theorem swipe_timeout_boundary :
    (swipeChartStep 1000 [swipeHand] swipeTrackState).1.swipe.isTracking = true ∧
    (swipeChartStep 1000 [swipeHand] swipeTrackState).2 = [] ∧
    (swipeChartStep 1000 [swipeHand] swipeTrackState).1.chartAnimationState
      = ChartState.visible := by
  obtain ⟨_, _, hkeep⟩ :=
    swipeChartStep_cases 1000 swipeHand [] swipeTrackState swipeHand_extended rfl
  have hs : swipeTrackState.swipe.startTime = 0 := rfl
  obtain ⟨h1, h2, h3⟩ := hkeep (fun hcon => by rw [hs] at hcon; omega) (by rw [hs]; omega)
  exact ⟨h1, h2, h3⟩

theorem pinchStart_chart (w h px py : ℚ) (s : CoreState) :
    (pinchStart w h px py s).1.chartAnimationState = s.chartAnimationState ∧
    (pinchStart w h px py s).1.showChart = s.showChart := by
  unfold pinchStart
  repeat' split
  all_goals exact ⟨rfl, rfl⟩

theorem pinchContinue_chart (px py : ℚ) (s : CoreState) :
    (pinchContinue px py s).chartAnimationState = s.chartAnimationState ∧
    (pinchContinue px py s).showChart = s.showChart := by
  cases hd : s.draggedTable <;> simp [pinchContinue, hd]

theorem pinchRelease_chart (s : CoreState) :
    (pinchRelease s).chartAnimationState = s.chartAnimationState ∧
    (pinchRelease s).showChart = s.showChart := by
  simp only [pinchRelease]
  repeat' split
  all_goals exact ⟨rfl, rfl⟩

theorem noHandsRelease_chart (s : CoreState) :
    (noHandsRelease s).chartAnimationState = s.chartAnimationState ∧
    (noHandsRelease s).showChart = s.showChart := by
  simp only [noHandsRelease]
  repeat' split
  all_goals exact ⟨rfl, rfl⟩

theorem processHand_chart (w h : ℚ) (hand : Hand) (s : CoreState) :
    (processHand w h hand s).1.chartAnimationState = s.chartAnimationState ∧
    (processHand w h hand s).1.showChart = s.showChart := by
  by_cases hh : handIsPinching hand = true
  · by_cases hp : s.pinch.isPinching = true
    · rw [processHand_continue w h hand s hp hh]
      exact pinchContinue_chart _ _ s
    · have hp' : s.pinch.isPinching = false := by simpa using hp
      rw [processHand_start w h hand s hp' hh]
      exact pinchStart_chart w h _ _ s
  · have hh' : handIsPinching hand = false := by simpa using hh
    by_cases hp : s.pinch.isPinching = true
    · rw [processHand_release w h hand s hp hh']
      exact pinchRelease_chart s
    · have hp' : s.pinch.isPinching = false := by simpa using hp
      rw [processHand_noop w h hand s hp' hh']
      exact ⟨rfl, rfl⟩

theorem processHands_chart (w h : ℚ) (frame : List Hand) :
    ∀ s : CoreState,
      (processHands w h s frame).1.chartAnimationState = s.chartAnimationState ∧
      (processHands w h s frame).1.showChart = s.showChart := by
  induction frame with
  | nil => intro s; exact ⟨rfl, rfl⟩
  | cons hand rest ih =>
    intro s
    obtain ⟨h1, h2⟩ := ih (processHand w h hand s).1
    obtain ⟨g1, g2⟩ := processHand_chart w h hand s
    constructor
    · show (processHands w h (processHand w h hand s).1 rest).1.chartAnimationState = _
      rw [h1, g1]
    · show (processHands w h (processHand w h hand s).1 rest).1.showChart = _
      rw [h2, g2]

theorem handsStep_chart (w h : ℚ) (frame : List Hand) (s : CoreState) :
    (handsStep w h frame s).1.chartAnimationState = s.chartAnimationState ∧
    (handsStep w h frame s).1.showChart = s.showChart := by
  cases frame with
  | nil =>
    by_cases hp : s.pinch.isPinching = true
    · have hred : handsStep w h [] s = (noHandsRelease s, []) := by
        unfold handsStep
        simp [hp]
      rw [hred]
      exact noHandsRelease_chart s
    · have hp' : s.pinch.isPinching = false := by simpa using hp
      have hred : handsStep w h [] s = (s, []) := by
        unfold handsStep
        simp [hp']
      rw [hred]
      exact ⟨rfl, rfl⟩
  | cons a rest =>
    rw [handsStep_cons]
    exact processHands_chart w h (a :: rest) s

/-- A swipe tick either leaves the view state alone or sets it `exiting`. -/
theorem swipeChartStep_chart (now : ℤ) (frame : List Hand) (s : CoreState) :
    (swipeChartStep now frame s).1.chartAnimationState = s.chartAnimationState ∨
    (swipeChartStep now frame s).1.chartAnimationState = ChartState.exiting := by
  cases frame with
  | nil => left; rfl
  | cons a rest =>
    simp only [swipeChartStep]
    repeat' split
    all_goals first
      | (left; rfl)
      | (right; simp [hideChartWithAnimation])

/-- C2 counterexample: while the view state is `entering` (chart already
shown), a completing swipe transitions the state to `exiting` — skipping
`visible` — contradicting the claim that a swipe has no effect before
`visible`. -/
theorem entering_swipe_exits :
    enteringSwipeState.chartAnimationState = ChartState.entering ∧
    (renderTick 1 1 400 [swipeHand] enteringSwipeState).1.chartAnimationState
      = ChartState.exiting := by
  refine ⟨rfl, ?_⟩
  have hrt : renderTick 1 1 400 [swipeHand] enteringSwipeState
      = swipeChartStep 400 [swipeHand] enteringSwipeState := rfl
  rw [hrt]
  have hcomp : 3/10 < |(swipeHand 8).x - enteringSwipeState.swipe.startX| ∧
      |(swipeHand 8).y - enteringSwipeState.swipe.startY| < 1/5 ∧
      (400:ℤ) - enteringSwipeState.swipe.startTime < 1000 := by
    refine ⟨?_, ?_, ?_⟩
    · have hv : (swipeHand 8).x - enteringSwipeState.swipe.startX = 2/5 := by
        norm_num [swipeHand, enteringSwipeState, swipeTrackState]
      rw [hv, abs_of_nonneg (by norm_num : (0:ℚ) ≤ 2/5)]
      norm_num
    · have hv : (swipeHand 8).y - enteringSwipeState.swipe.startY = 0 := by
        norm_num [swipeHand, enteringSwipeState, swipeTrackState]
      rw [hv]
      norm_num
    · norm_num [enteringSwipeState, swipeTrackState]
  exact ((swipeChartStep_cases 400 swipeHand [] enteringSwipeState swipeHand_extended
      rfl).1 hcomp).1

/-- C2 (amended): the swipe-triggered exit is guarded by `showChart` rather
than by the `visible` state. With the chart hidden a tick never changes the
view state; a chart-mode swipe tick either leaves the view state or sets it
`exiting` (so from `entering` a completed swipe jumps to `exiting`, skipping
`visible`); the timed transitions step entering→visible and exiting→hidden,
and generate enters `entering` from the scheduled show call. -/
theorem view_state_transitions (w h : ℚ) (now : ℤ) (frame : List Hand) (s : CoreState) :
    (s.showChart = false →
      (renderTick w h now frame s).1.chartAnimationState = s.chartAnimationState ∧
      (renderTick w h now frame s).1.showChart = false) ∧
    ((swipeChartStep now frame s).1.chartAnimationState = s.chartAnimationState ∨
      (swipeChartStep now frame s).1.chartAnimationState = ChartState.exiting) ∧
    ((showChartWithAnimation now s).chartAnimationState = ChartState.entering ∧
      (showChartSettle s).chartAnimationState = ChartState.visible ∧
      (hideChartWithAnimation now s).chartAnimationState = ChartState.exiting ∧
      (hideChartSettle s).chartAnimationState = ChartState.hidden) := by
  refine ⟨?_, swipeChartStep_chart now frame s, rfl, rfl, rfl, rfl⟩
  intro hsc
  have hrt : renderTick w h now frame s = handsStep w h frame s := by
    unfold renderTick
    simp [hsc]
  rw [hrt]
  obtain ⟨h1, h2⟩ := handsStep_chart w h frame s
  exact ⟨h1, by rw [h2, hsc]⟩

/-- C2 amended-claim witness: a hidden-chart tick leaves the view state
alone at a concrete idle state. -/
theorem view_state_transitions_witness :
    (renderTick 1 1 0 [] idleState).1.chartAnimationState
        = idleState.chartAnimationState ∧
    (renderTick 1 1 0 [] idleState).1.showChart = false :=
  (view_state_transitions 1 1 0 [] idleState).1 rfl

theorem handsStep_single_eff (w h : ℚ) (hand : Hand) (s : CoreState) :
    (handsStep w h [hand] s).2 = (processHand w h hand s).2 := by
  rw [handsStep_cons]
  show (processHand w h hand s).2 ++ ([] : List Effect) = _
  exact List.append_nil _

/-- Pinch start on the generate button with the latch free and an empty
dropped list: the error toast is the only effect. -/
theorem pinchStart_empty_button (w h px py : ℚ) (s : CoreState)
    (hbtn : inGenerateButton w h px py = true) (hclick : s.buttonClicked = false)
    (hempty : s.droppedTables = []) :
    pinchStart w h px py s
      = ({ s with
          generateButtonHover := true
          buttonClicked := true
          toast := some emptyDropToast
          pinch := ⟨true, px, py⟩ },
        [Effect.toastMsg emptyDropToast.message ToastKind.error]) := by
  unfold pinchStart
  rw [hbtn]
  simp only [hclick, hempty]
  rfl

theorem buttonHand_pinching : handIsPinching buttonHand = true := by
  simp only [handIsPinching, decide_eq_true_eq, pinchDistSq, buttonHand, pinchThreshold]
  norm_num

theorem buttonHand_in_button :
    inGenerateButton 1 1 (pinchMid buttonHand).x (pinchMid buttonHand).y = true := by
  simp only [inGenerateButton, decide_eq_true_eq, pinchMid, buttonHand, buttonCenterX,
    buttonCenterY, buttonWidth, buttonHeight, dropZone]
  norm_num

/-- C8: triggering the generate action while DroppedSet is empty emits the
user-facing notice and nothing else: the only effect is the error toast (no
catalog fetch, no scheduled show-chart transition), and the view state stays
`hidden` with the chart not shown and DroppedSet still empty. -/
theorem generate_empty_notice (w h : ℚ) (now : ℤ) (hand : Hand) (s : CoreState)
    (hsc : s.showChart = false) (hst : s.chartAnimationState = ChartState.hidden)
    (hp : s.pinch.isPinching = false) (hclick : s.buttonClicked = false)
    (hempty : s.droppedTables = [])
    (hh : handIsPinching hand = true)
    (hbtn : inGenerateButton w h (pinchMid hand).x (pinchMid hand).y = true) :
    (renderTick w h now [hand] s).2
        = [Effect.toastMsg emptyDropToast.message ToastKind.error] ∧
    (renderTick w h now [hand] s).1.chartAnimationState = ChartState.hidden ∧
    (renderTick w h now [hand] s).1.showChart = false ∧
    (renderTick w h now [hand] s).1.droppedTables = [] ∧
    (renderTick w h now [hand] s).1.toast = some emptyDropToast := by
  have hrt : renderTick w h now [hand] s = handsStep w h [hand] s := by
    unfold renderTick
    simp [hsc]
  have hps := processHand_start w h hand s hp hh
  have hpe := pinchStart_empty_button w h (pinchMid hand).x (pinchMid hand).y s
    hbtn hclick hempty
  refine ⟨?_, ?_, ?_, ?_, ?_⟩
  · rw [hrt, handsStep_single_eff, hps, hpe]
  · rw [hrt, handsStep_cons, processHands_single, hps, hpe]
    exact hst
  · rw [hrt, handsStep_cons, processHands_single, hps, hpe]
    exact hsc
  · rw [hrt, handsStep_cons, processHands_single, hps, hpe]
    exact hempty
  · rw [hrt, handsStep_cons, processHands_single, hps, hpe]

/-- C8 witness: the empty-generate notice at a concrete idle state and a
concrete pinch over the button. -/
theorem generate_empty_notice_witness :
    (renderTick 1 1 0 [buttonHand] idleState).2
        = [Effect.toastMsg emptyDropToast.message ToastKind.error] ∧
    (renderTick 1 1 0 [buttonHand] idleState).1.chartAnimationState
        = ChartState.hidden :=
  ⟨(generate_empty_notice 1 1 0 buttonHand idleState rfl rfl rfl rfl rfl
      buttonHand_pinching buttonHand_in_button).1,
    (generate_empty_notice 1 1 0 buttonHand idleState rfl rfl rfl rfl rfl
      buttonHand_pinching buttonHand_in_button).2.1⟩

/-- C10: table creation lays object i at x = 0.1 + 0.15·i, y = 0.1 with no
clamping applied, so every index from 6 on is created with x ≥ 1 — outside
the [0.05, 0.95] range that the drag clamp enforces (the clamp would move
it). -/
theorem createTableObjects_layout (now : ℤ) (names : List String) :
    (createTableObjects now names).length = names.length ∧
    (∀ avail : List String, avail ≠ [] → displayTablesOf avail = avail) ∧
    (∀ (i : ℕ) (t : TableObject), (createTableObjects now names).get? i = some t →
      t.x = 1/10 + (i : ℚ) * (3/20) ∧ t.y = 1/10 ∧ t.isDragging = false) ∧
    (∀ (i : ℕ) (t : TableObject), 6 ≤ i →
      (createTableObjects now names).get? i = some t →
      1 ≤ t.x ∧ clampCoord t.x ≠ t.x) := by
  have hget : ∀ i : ℕ, (createTableObjects now names).get? i
      = (names.get? i).map (fun name =>
          ⟨name ++ "-" ++ toString now ++ "-" ++ toString i, name,
            1/10 + (i : ℚ) * (3/20), 1/10, false⟩) := by
    intro i
    unfold createTableObjects
    rw [List.get?_map, List.get?_enum]
    cases names.get? i <;> rfl
  refine ⟨?_, ?_, ?_, ?_⟩
  · unfold createTableObjects
    rw [List.length_map, List.enum_length]
  · intro avail ha
    unfold displayTablesOf
    rw [if_pos (List.length_pos.mpr ha)]
  · intro i t ht
    rw [hget i] at ht
    cases hn : names.get? i with
    | none => rw [hn] at ht; exact absurd ht (by simp)
    | some name =>
      rw [hn] at ht
      have hte := Option.some.inj ht
      rw [← hte]
      exact ⟨rfl, rfl, rfl⟩
  · intro i t h6 ht
    rw [hget i] at ht
    cases hn : names.get? i with
    | none => rw [hn] at ht; exact absurd ht (by simp)
    | some name =>
      rw [hn] at ht
      have hte := Option.some.inj ht
      have hx : t.x = 1/10 + (i : ℚ) * (3/20) := by rw [← hte]
      have h1 : (1:ℚ) ≤ t.x := by
        rw [hx]
        have h6q : (6:ℚ) ≤ (i:ℚ) := by exact_mod_cast h6
        linarith
      refine ⟨h1, fun heq => ?_⟩
      have h2 := (clampCoord_mem t.x).2
      rw [heq] at h2
      linarith

/-- C10 witness: with seven table names, the object created at index 6 has
x = 0.1 + 6·0.15 = 1. -/
theorem createTableObjects_layout_witness :
    (1:ℚ) ≤ 1/10 + ((6:ℕ) : ℚ) * (3/20) := by
  have h := (createTableObjects_layout 0 ["a", "b", "c", "d", "e", "f", "g"]).2.2.2 6
    ⟨"g" ++ "-" ++ toString (0:ℤ) ++ "-" ++ toString (6:ℕ), "g",
      1/10 + ((6:ℕ) : ℚ) * (3/20), 1/10, false⟩ (by norm_num) rfl
  exact h.1

end IronManTable
